import Mathlib

set_option maxRecDepth 100000

/-!
Verification of the create-source-header-pair feature of the vscode-clangd
fork.  The definitions below are shallow embeddings of the TypeScript code in
`src/create-source-header-pair.ts` (two concatenated variants), the
`PairCreatorService`/`PairCreatorUI` variant, and the namespaced
`PairingRuleService`.  User dialogs are modelled by injecting the user's
response as data; the file system is modelled as an existence predicate
`String → Bool`.
-/

namespace VCPair

/-! ## Model of the Node `path` module (posix flavour)

The TypeScript code uses `path.extname`, `path.basename`, `path.dirname` and
`path.join`.  The functions below reproduce Node's behaviour for the paths the
feature handles (no trailing slashes, relative second argument to `join`). -/

/-- The characters after the last `/` of a character list. -/
def afterLastSep (l : List Char) : List Char :=
  (l.reverse.takeWhile (fun c => ¬ c = '/')).reverse

/-- The final path segment (Node `path.basename(p)` for paths without
trailing separators). -/
def pbasename (p : String) : String :=
  String.mk (afterLastSep p.data)

/-- Index of the last `.` in a character list, if any. -/
def lastDotIdx (l : List Char) : Option Nat :=
  (l.reverse.findIdx? (fun c => c = '.')).map (fun i => l.length - 1 - i)

/-- Node `path.extname`: the suffix of the basename starting at its last dot;
empty when there is no dot or the only dot is the leading character. -/
def extname (p : String) : String :=
  let b := (pbasename p).data
  match lastDotIdx b with
  | none => ""
  | some i => if i = 0 then "" else String.mk (b.drop i)

/-- Node `path.dirname` for paths without trailing separators: the part
before the last `/`; `.` when there is no `/`; `/` for a root entry. -/
def dirname (p : String) : String :=
  match p.data.reverse.dropWhile (fun c => ¬ c = '/') with
  | [] => "."
  | _ :: rest => if rest = [] then "/" else String.mk rest.reverse

/-- Node `path.join dir file` for a relative `file`; joining from `.`
normalizes the leading `./` away. -/
def pjoin (a b : String) : String :=
  if a = "" ∨ a = "." then b else a ++ "/" ++ b

/-- Node `path.basename(p, ext)`: the basename with a trailing `ext`
stripped (Node keeps the name when it equals `ext`; that case cannot occur
for the feature's inputs). -/
def basenameStrip (p ext : String) : String :=
  let b := pbasename p
  if ext.data.isSuffixOf b.data ∧ b ≠ ext then
    String.mk (b.data.take (b.data.length - ext.data.length))
  else b

/-! ## Language detection (`PairCreator.detectLanguage`,
`src/create-source-header-pair.ts`, first variant, lines 127–169) -/

/-- The `'c' | 'cpp'` union type. -/
inductive Language where
  | c
  | cpp
deriving DecidableEq, Repr

/-- The detection result `{ language, uncertain }`. -/
structure Detection where
  language : Language
  uncertain : Bool
deriving DecidableEq, Repr

/-- The relevant data of the active text document: VS Code's language
identifier and the file path.  `Option ActiveFile` models
"no active editor, or the document is untitled" as `none`. -/
structure ActiveFile where
  langId : String
  filePath : String

/-- Embedding of `PairCreator.detectLanguage`.  `fexists` is the file system
(`vscode.workspace.fs.stat` succeeding).  In the `.h` branch the code stats
all four companions concurrently and inspects the `.c` result first, so a
`.c` companion wins regardless of the other results. -/
def detectLanguage (active : Option ActiveFile) (fexists : String → Bool) :
    Detection :=
  match active with
  | none => ⟨.cpp, true⟩
  | some a =>
    let ext := extname a.filePath
    if ext = ".c" then ⟨.c, false⟩
    else if ext = ".cpp" ∨ ext = ".cc" ∨ ext = ".cxx" then ⟨.cpp, false⟩
    else if ext = ".hh" ∨ ext = ".hpp" ∨ ext = ".hxx" then ⟨.cpp, false⟩
    else if ext = ".h" then
      let baseName := basenameStrip a.filePath ".h"
      let dirPath := dirname a.filePath
      if fexists (pjoin dirPath (baseName ++ ".c")) then ⟨.c, false⟩
      else if fexists (pjoin dirPath (baseName ++ ".cpp")) ∨
              fexists (pjoin dirPath (baseName ++ ".cc")) ∨
              fexists (pjoin dirPath (baseName ++ ".cxx")) then ⟨.cpp, false⟩
      else ⟨.cpp, true⟩
    else if a.langId = "c" then ⟨.c, true⟩ else ⟨.cpp, true⟩

/-- `PairCreatorService.detectLanguageForHeaderFile` (part_000, lines
1162–1191): `{cpp, uncertain}` without a `fileExistsCheck` capability;
otherwise the `.c` companion is checked first, then the C++ companions.
The declared return type admits `null` but every path returns a value, so
the result type here is plain `Detection`. -/
def detectLanguageForHeaderFile (filePath : String)
    (fileExistsCheck : Option (String → Bool)) : Detection :=
  match fileExistsCheck with
  | none => ⟨.cpp, true⟩
  | some fexists =>
    if fexists (pjoin (dirname filePath)
        (basenameStrip filePath ".h" ++ ".c")) then ⟨.c, false⟩
    else if fexists (pjoin (dirname filePath)
            (basenameStrip filePath ".h" ++ ".cpp")) ∨
          fexists (pjoin (dirname filePath)
            (basenameStrip filePath ".h" ++ ".cc")) ∨
          fexists (pjoin (dirname filePath)
            (basenameStrip filePath ".h" ++ ".cxx")) then ⟨.cpp, false⟩
    else ⟨.cpp, true⟩

/-- `PairCreatorService.detectLanguage` (part_000, lines 1119–1153).  The
optional `languageId`/`filePath` arguments are `Option String` with JS
falsiness (`none` or the empty string); this variant consults the host
identifier *before* the `.h` probe and returns certain results for `c`,
`cpp` and `cxx`.  Since `detectLanguageForHeaderFile` never returns `null`,
its `if (result) return result` always returns. -/
def detectLanguageSvc (languageId filePath : Option String)
    (fileExistsCheck : Option (String → Bool)) : Detection :=
  if languageId.getD "" = "" ∨ filePath.getD "" = "" then ⟨.cpp, true⟩
  else
    let langId := languageId.getD ""
    let fp := filePath.getD ""
    let ext := extname fp
    if ext = ".c" then ⟨.c, false⟩
    else if ext = ".cpp" ∨ ext = ".cc" ∨ ext = ".cxx" ∨ ext = ".hh" ∨
            ext = ".hpp" ∨ ext = ".hxx" then ⟨.cpp, false⟩
    else if langId = "c" then ⟨.c, false⟩
    else if langId = "cpp" ∨ langId = "cxx" then ⟨.cpp, false⟩
    else if ext = ".h" then detectLanguageForHeaderFile fp fileExistsCheck
    else if langId = "c" then ⟨.c, true⟩ else ⟨.cpp, true⟩

/-- C1: when the active file's extension is exactly `.h`, the companion-file
probe decides: a same-basename `.c` sibling gives `{c, certain}` regardless of
the other siblings; otherwise any of the `.cpp`/`.cc`/`.cxx` siblings gives
`{cpp, certain}`; otherwise the result is `{cpp, uncertain}`. -/
theorem header_probe_decides (a : ActiveFile) (fexists : String → Bool)
    (hExt : extname a.filePath = ".h") :
    (fexists (pjoin (dirname a.filePath)
        (basenameStrip a.filePath ".h" ++ ".c")) = true →
      detectLanguage (some a) fexists = ⟨.c, false⟩) ∧
    (fexists (pjoin (dirname a.filePath)
        (basenameStrip a.filePath ".h" ++ ".c")) = false →
      (fexists (pjoin (dirname a.filePath)
          (basenameStrip a.filePath ".h" ++ ".cpp")) = true ∨
       fexists (pjoin (dirname a.filePath)
          (basenameStrip a.filePath ".h" ++ ".cc")) = true ∨
       fexists (pjoin (dirname a.filePath)
          (basenameStrip a.filePath ".h" ++ ".cxx")) = true) →
      detectLanguage (some a) fexists = ⟨.cpp, false⟩) ∧
    (fexists (pjoin (dirname a.filePath)
        (basenameStrip a.filePath ".h" ++ ".c")) = false →
     fexists (pjoin (dirname a.filePath)
        (basenameStrip a.filePath ".h" ++ ".cpp")) = false →
     fexists (pjoin (dirname a.filePath)
        (basenameStrip a.filePath ".h" ++ ".cc")) = false →
     fexists (pjoin (dirname a.filePath)
        (basenameStrip a.filePath ".h" ++ ".cxx")) = false →
      detectLanguage (some a) fexists = ⟨.cpp, true⟩) := by
  refine ⟨?_, ?_, ?_⟩ <;> simp [detectLanguage, hExt] <;> intros <;>
    simp_all

/-- Witness for `header_probe_decides`: a `.h` file with both a `.c` and a
`.cpp` sibling is detected as `{c, certain}`. -/
theorem header_probe_decides_witness :
    detectLanguage (some ⟨"cpp", "dir/foo.h"⟩)
      (fun s => s = "dir/foo.c" ∨ s = "dir/foo.cpp") = ⟨.c, false⟩ :=
  (header_probe_decides ⟨"cpp", "dir/foo.h"⟩ _ (by decide)).1 (by decide)

/-- C2: a `.c` extension is detected as `{c, certain}`; each of `.cpp`,
`.cc`, `.cxx`, `.hh`, `.hpp`, `.hxx` is detected as `{cpp, certain}`. -/
theorem definitive_extensions (a : ActiveFile) (fexists : String → Bool) :
    (extname a.filePath = ".c" →
      detectLanguage (some a) fexists = ⟨.c, false⟩) ∧
    (extname a.filePath ∈ [".cpp", ".cc", ".cxx", ".hh", ".hpp", ".hxx"] →
      detectLanguage (some a) fexists = ⟨.cpp, false⟩) := by
  constructor
  · intro h
    simp [detectLanguage, h]
  · intro h
    simp only [List.mem_cons, List.not_mem_nil, or_false] at h
    rcases h with h | h | h | h | h | h <;> simp [detectLanguage, h]

/-- Witness for `definitive_extensions`: `main.c` and `main.hpp`. -/
theorem definitive_extensions_witness :
    detectLanguage (some ⟨"plain", "a/main.c"⟩) (fun _ => false) =
      ⟨.c, false⟩ ∧
    detectLanguage (some ⟨"plain", "a/main.hpp"⟩) (fun _ => false) =
      ⟨.cpp, false⟩ :=
  ⟨(definitive_extensions ⟨"plain", "a/main.c"⟩ _).1 (by decide),
   (definitive_extensions ⟨"plain", "a/main.hpp"⟩ _).2 (by decide)⟩

/-- C3 counterexample: the claimed identifier fallback fails on both cited
implementations.  In the command's `detectLanguage`, a `.h` file whose probe
finds no companion does not fall through to the identifier: with identifier
`"c"` and no companions the result is `{cpp, uncertain}`, not `{c,
uncertain}`.  In `PairCreatorService.detectLanguage`, a non-definitive
extension with identifier `"c"` yields the certain `{c, uncertain := false}`,
not the claimed `{c, uncertain := true}`. -/
theorem header_no_companion_ignores_langid :
    extname "foo.h" = ".h" ∧
    detectLanguage (some ⟨"c", "foo.h"⟩) (fun _ => false) = ⟨.cpp, true⟩ ∧
    Detection.mk .cpp true ≠ Detection.mk .c true ∧
    detectLanguageSvc (some "c") (some "foo.txt") (some fun _ => false) =
      ⟨.c, false⟩ ∧
    Detection.mk .c false ≠ Detection.mk .c true := by
  decide

/-- C3 (amended): a missing identifier or file path yields `{cpp,
uncertain}` in both variants.  In the command's `detectLanguage` the
identifier fallback applies only when the extension is neither definitive
nor `.h` (`"c"` gives `{c, uncertain}`, anything else `{cpp, uncertain}`),
and the `.h` no-companion case yields `{cpp, uncertain}` regardless of the
identifier.  In the `PairCreatorService` variant the identifier is consulted
before the `.h` probe and yields certain results (`"c"` gives `{c, certain}`,
`"cpp"`/`"cxx"` give `{cpp, certain}`); for other identifiers a companion-less
`.h`, or any other non-definitive extension, gives `{cpp, uncertain}`. -/
theorem langid_fallback :
    (∀ (active : Option ActiveFile) (fexists : String → Bool),
      (active = none → detectLanguage active fexists = ⟨.cpp, true⟩) ∧
      (∀ a, active = some a →
        extname a.filePath ∉
          [".c", ".cpp", ".cc", ".cxx", ".hh", ".hpp", ".hxx", ".h"] →
        ((a.langId = "c" → detectLanguage active fexists = ⟨.c, true⟩) ∧
         (a.langId ≠ "c" → detectLanguage active fexists = ⟨.cpp, true⟩))) ∧
      (∀ a, active = some a → extname a.filePath = ".h" →
        fexists (pjoin (dirname a.filePath)
          (basenameStrip a.filePath ".h" ++ ".c")) = false →
        fexists (pjoin (dirname a.filePath)
          (basenameStrip a.filePath ".h" ++ ".cpp")) = false →
        fexists (pjoin (dirname a.filePath)
          (basenameStrip a.filePath ".h" ++ ".cc")) = false →
        fexists (pjoin (dirname a.filePath)
          (basenameStrip a.filePath ".h" ++ ".cxx")) = false →
        detectLanguage active fexists = ⟨.cpp, true⟩)) ∧
    (∀ (languageId filePath : Option String)
        (fex : Option (String → Bool)),
      languageId.getD "" = "" ∨ filePath.getD "" = "" →
      detectLanguageSvc languageId filePath fex = ⟨.cpp, true⟩) ∧
    (∀ (langId fp : String) (fex : Option (String → Bool)),
      ¬langId = "" → ¬fp = "" →
      extname fp ∉ [".c", ".cpp", ".cc", ".cxx", ".hh", ".hpp", ".hxx"] →
      ((langId = "c" →
         detectLanguageSvc (some langId) (some fp) fex = ⟨.c, false⟩) ∧
       (langId = "cpp" ∨ langId = "cxx" →
         detectLanguageSvc (some langId) (some fp) fex = ⟨.cpp, false⟩))) ∧
    (∀ (langId fp : String) (fexists : String → Bool),
      ¬langId = "" → ¬fp = "" →
      ¬langId = "c" → ¬langId = "cpp" → ¬langId = "cxx" →
      extname fp = ".h" →
      fexists (pjoin (dirname fp) (basenameStrip fp ".h" ++ ".c")) = false →
      fexists (pjoin (dirname fp)
        (basenameStrip fp ".h" ++ ".cpp")) = false →
      fexists (pjoin (dirname fp) (basenameStrip fp ".h" ++ ".cc")) = false →
      fexists (pjoin (dirname fp)
        (basenameStrip fp ".h" ++ ".cxx")) = false →
      detectLanguageSvc (some langId) (some fp) (some fexists) =
        ⟨.cpp, true⟩) ∧
    (∀ (langId fp : String) (fex : Option (String → Bool)),
      ¬langId = "" → ¬fp = "" →
      ¬langId = "c" → ¬langId = "cpp" → ¬langId = "cxx" →
      extname fp ∉
        [".c", ".cpp", ".cc", ".cxx", ".hh", ".hpp", ".hxx", ".h"] →
      detectLanguageSvc (some langId) (some fp) fex = ⟨.cpp, true⟩) := by
  refine ⟨fun active fexists => ⟨?_, ?_, ?_⟩, ?_, ?_, ?_, ?_⟩
  · intro h; simp [h, detectLanguage]
  · rintro a rfl h
    simp only [List.mem_cons, List.mem_singleton, List.not_mem_nil] at h
    push_neg at h
    obtain ⟨h1, h2, h3, h4, h5, h6, h7, h8⟩ := h
    constructor
    · intro hc
      simp [detectLanguage, h1, h2, h3, h4, h5, h6, h7, h8, hc]
    · intro hc
      simp [detectLanguage, h1, h2, h3, h4, h5, h6, h7, h8, hc]
  · rintro a rfl hExt hc hcpp hcc hcxx
    exact (header_probe_decides a fexists hExt).2.2 hc hcpp hcc hcxx
  · intro languageId filePath fex h
    simp only [detectLanguageSvc, if_pos h]
  · intro langId fp fex hl hf hext
    simp only [List.mem_cons, List.mem_singleton, List.not_mem_nil] at hext
    push_neg at hext
    obtain ⟨h1, h2, h3, h4, h5, h6, h7⟩ := hext
    constructor
    · intro hc
      simp [detectLanguageSvc, hl, hf, h1, h2, h3, h4, h5, h6, h7, hc]
    · rintro (hc | hc) <;>
        simp [detectLanguageSvc, hl, hf, h1, h2, h3, h4, h5, h6, h7, hc]
  · intro langId fp fexists hl hf hlc hlcpp hlcxx hExt hc hcpp hcc hcxx
    simp [detectLanguageSvc, detectLanguageForHeaderFile, hl, hf, hlc,
      hlcpp, hlcxx, hExt, hc, hcpp, hcc, hcxx]
  · intro langId fp fex hl hf hlc hlcpp hlcxx hext
    simp only [List.mem_cons, List.mem_singleton, List.not_mem_nil] at hext
    push_neg at hext
    obtain ⟨h1, h2, h3, h4, h5, h6, h7, h8⟩ := hext
    simp [detectLanguageSvc, hl, hf, hlc, hlcpp, hlcxx,
      h1, h2, h3, h4, h5, h6, h7, h8]

/-- Witness for `langid_fallback`: in the command variant, an extensionless
path with identifier `"c"` and a companion-less header with identifier
`"c"`; in the service variant, a missing path, a `.txt` path with identifier
`"c"`, and a companion-less header with an unrecognised identifier. -/
theorem langid_fallback_witness :
    detectLanguage (some ⟨"c", "Makefile"⟩) (fun _ => false) = ⟨.c, true⟩ ∧
    detectLanguage (some ⟨"c", "foo.h"⟩) (fun _ => false) = ⟨.cpp, true⟩ ∧
    detectLanguageSvc (some "c") none none = ⟨.cpp, true⟩ ∧
    detectLanguageSvc (some "c") (some "foo.txt") none = ⟨.c, false⟩ ∧
    detectLanguageSvc (some "plain") (some "foo.h") (some fun _ => false) =
      ⟨.cpp, true⟩ :=
  ⟨((langid_fallback.1 (some ⟨"c", "Makefile"⟩) (fun _ => false)).2.1
      ⟨"c", "Makefile"⟩ rfl (by decide)).1 rfl,
   (langid_fallback.1 (some ⟨"c", "foo.h"⟩) (fun _ => false)).2.2
      ⟨"c", "foo.h"⟩ rfl (by decide) rfl rfl rfl rfl,
   langid_fallback.2.1 (some "c") none none (Or.inr rfl),
   (langid_fallback.2.2.1 "c" "foo.txt" none (by decide) (by decide)
      (by decide)).1 rfl,
   langid_fallback.2.2.2.1 "plain" "foo.h" (fun _ => false) (by decide)
      (by decide) (by decide) (by decide) (by decide) (by decide)
      rfl rfl rfl rfl⟩

/-! ## Template variable substitution

`applyTemplate` embeds
`template.replace(/\{\{(\w+)\}\}/g, (match, key) => context[key] || match)`
(first variant, lines 614–618) and `applyTemplateNS` embeds the
`PairCreatorService` variant `(_, key) => context[key] ?? ''`
(part_000, lines 332–335).  The regex scan is modelled by `substAux`,
a character scanner parameterised by the replacement rule; the fuel
argument (instantiated with the input length, which bounds the number of
steps) keeps the recursion structural. -/

/-- JavaScript `\w`: ASCII letters, digits and underscore. -/
def isWordChar (c : Char) : Bool :=
  c.isAlpha || c.isDigit || c == '_'

/-- The full matched text `{{w}}` as characters. -/
def matchChars (w : String) : List Char :=
  '\x7b' :: '\x7b' :: (w.data ++ ['\x7d', '\x7d'])

/-- A match of `\{\{(\w+)\}\}` starts at the head of `c1 :: c2 :: cs` iff
both lead characters are `{`, a nonempty run of word characters follows,
and that run is followed by `}}`. -/
def matchesAt (c1 c2 : Char) (cs : List Char) : Prop :=
  c1 = '\x7b' ∧ c2 = '\x7b' ∧ cs.takeWhile isWordChar ≠ [] ∧
    (cs.dropWhile isWordChar).take 2 = ['\x7d', '\x7d']

instance (c1 c2 : Char) (cs : List Char) : Decidable (matchesAt c1 c2 cs) :=
  inferInstanceAs (Decidable (_ ∧ _ ∧ _ ∧ _))

/-- Scanner for the global regex `\{\{(\w+)\}\}`: at each position, if a
match starts there, emit `repl` of the word run and continue after the
match; otherwise emit one character and continue at the next position.  The
fuel argument is instantiated with the input length, which bounds the number
of steps. -/
def substAux (repl : String → List Char) : Nat → List Char → List Char
  | _, [] => []
  | 0, l => l
  | _ + 1, [c] => [c]
  | fuel + 1, c1 :: c2 :: cs =>
    if matchesAt c1 c2 cs then
      repl (String.mk (cs.takeWhile isWordChar)) ++
        substAux repl fuel ((cs.dropWhile isWordChar).drop 2)
    else c1 :: substAux repl fuel (c2 :: cs)

/-- The placeholder names matched by the same scan, in order. -/
def placeholdersAux : Nat → List Char → List String
  | _, [] => []
  | 0, _ => []
  | _ + 1, [_] => []
  | fuel + 1, c1 :: c2 :: cs =>
    if matchesAt c1 c2 cs then
      String.mk (cs.takeWhile isWordChar) ::
        placeholdersAux fuel ((cs.dropWhile isWordChar).drop 2)
    else placeholdersAux fuel (c2 :: cs)

/-- JavaScript object lookup `context[key]` for a context given as an
association list. -/
def jsLookup (ctx : List (String × String)) (k : String) : Option String :=
  (ctx.find? (fun p => p.1 == k)).map Prod.snd

/-- The replacement rule `context[key] || match`: an unbound key, or a key
bound to the empty string (falsy), leaves the matched text unchanged. -/
def replOrMatch (ctx : List (String × String)) (w : String) : List Char :=
  match jsLookup ctx w with
  | some v => if v = "" then matchChars w else v.data
  | none => matchChars w

/-- The replacement rule `context[key] ?? ''`: an unbound key is replaced by
the empty string. -/
def replOrEmpty (ctx : List (String × String)) (w : String) : List Char :=
  ((jsLookup ctx w).getD "").data

/-- `PairCreator.applyTemplate` (first variant, lines 614–618). -/
def applyTemplate (template : String) (ctx : List (String × String)) :
    String :=
  String.mk (substAux (replOrMatch ctx) template.data.length template.data)

/-- `PairCreatorService.applyTemplate` (part_000, lines 332–335). -/
def applyTemplateNS (template : String) (ctx : List (String × String)) :
    String :=
  String.mk (substAux (replOrEmpty ctx) template.data.length template.data)

/-- The placeholder names occurring (as matches) in a template. -/
def templatePlaceholders (template : String) : List String :=
  placeholdersAux template.data.length template.data

/-- The scan output depends on the replacement rule only through its values
at the placeholders found by the scan. -/
theorem substAux_congr (r1 r2 : String → List Char) :
    ∀ fuel l, (∀ w ∈ placeholdersAux fuel l, r1 w = r2 w) →
      substAux r1 fuel l = substAux r2 fuel l := by
  intro fuel
  induction fuel with
  | zero => intro l _; cases l <;> rfl
  | succ n ih =>
    intro l h
    match l with
    | [] => rfl
    | [c] => rfl
    | c1 :: c2 :: cs =>
      simp only [substAux, placeholdersAux] at h ⊢
      by_cases hm : matchesAt c1 c2 cs
      · simp only [if_pos hm] at h ⊢
        rw [h _ (List.mem_cons_self _ _),
          ih _ (fun w hw => h w (List.mem_cons_of_mem _ hw))]
      · simp only [if_neg hm] at h ⊢
        exact congrArg _ (ih _ h)

/-- No two adjacent `{` characters occur in the list.  A regex match needs
`{{`, so the scan leaves such a string unchanged. -/
def noAdjacentBraces : List Char → Bool
  | c1 :: c2 :: cs =>
    !(c1 == '\x7b' && c2 == '\x7b') && noAdjacentBraces (c2 :: cs)
  | _ => true

/-- On a string with no adjacent open braces the scan is the identity. -/
theorem substAux_id (repl : String → List Char) :
    ∀ fuel l, noAdjacentBraces l = true → substAux repl fuel l = l := by
  intro fuel
  induction fuel with
  | zero => intro l _; cases l <;> rfl
  | succ n ih =>
    intro l hl
    match l with
    | [] => rfl
    | [c] => rfl
    | c1 :: c2 :: cs =>
      have hparts : (¬c1 = '\x7b' ∨ ¬c2 = '\x7b') ∧
          noAdjacentBraces (c2 :: cs) = true := by
        simpa [noAdjacentBraces, Bool.and_eq_true] using hl
      have hm : ¬ matchesAt c1 c2 cs := fun hmm =>
        hparts.1.elim (fun hne => hne hmm.1) (fun hne => hne hmm.2.1)
      simp only [substAux, if_neg hm]
      rw [ih _ hparts.2]

/-! ## Pairing rules and templates -/

/-- The `PairingRule` record.  The optional `isClass`/`isStruct` flags are
modelled as booleans defaulting to `false` (absent = falsy). -/
structure PairingRule where
  key : String
  label : String
  description : String
  language : Language
  headerExt : String
  sourceExt : String
  isClass : Bool := false
  isStruct : Bool := false
deriving DecidableEq, Repr

/-- Built-in rule `cpp_empty` (first variant, lines 38–43). -/
def cppEmptyRule : PairingRule :=
  { key := "cpp_empty", label := "$(new-file) Empty C++ Pair",
    description := "Creates a basic .h/.cpp file pair with header guards.",
    language := .cpp, headerExt := ".h", sourceExt := ".cpp" }

/-- Built-in rule `cpp_class` (first variant, lines 44–49). -/
def cppClassRule : PairingRule :=
  { key := "cpp_class", label := "$(symbol-class) C++ Class",
    description :=
      "Creates a .h/.cpp pair with a boilerplate class definition.",
    language := .cpp, headerExt := ".h", sourceExt := ".cpp",
    isClass := true }

/-- Built-in rule `cpp_struct` (first variant, lines 50–55). -/
def cppStructRule : PairingRule :=
  { key := "cpp_struct", label := "$(symbol-struct) C++ Struct",
    description :=
      "Creates a .h/.cpp pair with a boilerplate struct definition.",
    language := .cpp, headerExt := ".h", sourceExt := ".cpp",
    isStruct := true }

/-- Built-in rule `c_empty` (first variant, lines 56–61). -/
def cEmptyRule : PairingRule :=
  { key := "c_empty", label := "$(file-code) Empty C Pair",
    description := "Creates a basic .h/.c file pair for function declarations.",
    language := .c, headerExt := ".h", sourceExt := ".c" }

/-- Built-in rule `c_struct` (first variant, lines 62–67). -/
def cStructRule : PairingRule :=
  { key := "c_struct", label := "$(symbol-struct) C Struct",
    description := "Creates a .h/.c pair with a boilerplate typedef struct.",
    language := .c, headerExt := ".h", sourceExt := ".c", isStruct := true }

/-- `TEMPLATE_RULES` (first variant, lines 37–68). -/
def TEMPLATE_RULES : List PairingRule :=
  [cppEmptyRule, cppClassRule, cppStructRule, cEmptyRule, cStructRule]

/-- A header/source template pair. -/
structure TemplatePair where
  header : String
  source : String
deriving DecidableEq, Repr

/-- C++ class templates (lines 522–548; literal braces written `\x7b`/`\x7d`). -/
def cppClassTemplates : TemplatePair :=
  { header := "#ifndef \x7b\x7bheaderGuard\x7d\x7d\n#define \x7b\x7bheaderGuard\x7d\x7d\n\nclass \x7b\x7bfileName\x7d\x7d \x7b\npublic:\n  \x7b\x7bfileName\x7d\x7d();\n  ~\x7b\x7bfileName\x7d\x7d();\n\nprivate:\n  // Add private members here\n\x7d;\n\n#endif  // \x7b\x7bheaderGuard\x7d\x7d\n",
    source := "\x7b\x7bincludeLine\x7d\x7d\n\n\x7b\x7bfileName\x7d\x7d::\x7b\x7bfileName\x7d\x7d() \x7b\n  // Constructor implementation\n\x7d\n\n\x7b\x7bfileName\x7d\x7d::~\x7b\x7bfileName\x7d\x7d() \x7b\n  // Destructor implementation\n\x7d\n" }

/-- C++ struct templates (lines 552–564). -/
def cppStructTemplates : TemplatePair :=
  { header := "#ifndef \x7b\x7bheaderGuard\x7d\x7d\n#define \x7b\x7bheaderGuard\x7d\x7d\n\nstruct \x7b\x7bfileName\x7d\x7d \x7b\n  // Struct members\n\x7d;\n\n#endif  // \x7b\x7bheaderGuard\x7d\x7d\n",
    source := "\x7b\x7bincludeLine\x7d\x7d" }

/-- C struct templates (lines 568–580). -/
def cStructTemplates : TemplatePair :=
  { header := "#ifndef \x7b\x7bheaderGuard\x7d\x7d\n#define \x7b\x7bheaderGuard\x7d\x7d\n\ntypedef struct \x7b\n  // Struct members\n\x7d \x7b\x7bfileName\x7d\x7d;\n\n#endif  // \x7b\x7bheaderGuard\x7d\x7d\n",
    source := "\x7b\x7bincludeLine\x7d\x7d" }

/-- C empty-pair templates (lines 584–597). -/
def cEmptyTemplates : TemplatePair :=
  { header := "#ifndef \x7b\x7bheaderGuard\x7d\x7d\n#define \x7b\x7bheaderGuard\x7d\x7d\n\n// Declarations for \x7b\x7bfileName\x7d\x7d.c\n\n#endif  // \x7b\x7bheaderGuard\x7d\x7d\n",
    source := "\x7b\x7bincludeLine\x7d\x7d\n\n// Implementations for \x7b\x7bfileName\x7d\x7d.c\n" }

/-- C++ empty-pair templates (lines 600–610). -/
def cppEmptyTemplates : TemplatePair :=
  { header := "#ifndef \x7b\x7bheaderGuard\x7d\x7d\n#define \x7b\x7bheaderGuard\x7d\x7d\n\n// Declarations for \x7b\x7bfileName\x7d\x7d.cpp\n\n#endif  // \x7b\x7bheaderGuard\x7d\x7d\n",
    source := "\x7b\x7bincludeLine\x7d\x7d" }

/-- `PairCreator.getTemplatesByRule` (first variant, lines 520–611). -/
def getTemplatesByRule (rule : PairingRule) : TemplatePair :=
  if rule.isClass = true then cppClassTemplates
  else if rule.isStruct = true ∧ rule.language = .cpp then cppStructTemplates
  else if rule.isStruct = true ∧ rule.language = .c then cStructTemplates
  else if rule.language = .c then cEmptyTemplates
  else cppEmptyTemplates

/-- ASCII upper-casing, as `String.prototype.toUpperCase` acts on the
identifier characters accepted by the input validation. -/
def toUpperStr (s : String) : String :=
  String.mk (s.data.map Char.toUpper)

/-- The substitution context of `generateFileContent` (lines 504–508):
`fileName`, `headerGuard` and `includeLine`. -/
def templateContext (fileName : String) (rule : PairingRule) :
    List (String × String) :=
  [("fileName", fileName),
   ("headerGuard", toUpperStr fileName ++ "_H_"),
   ("includeLine", "#include \"" ++ fileName ++ rule.headerExt ++ "\"")]

/-- `content.replace(/\n/g, eol)`. -/
def replaceNewlines (s eol : String) : String :=
  String.mk (s.data.flatMap (fun c => if c = '\n' then eol.data else [c]))

/-- `PairCreator.generateFileContent` (first variant, lines 501–517). -/
def generateFileContent (fileName eol : String) (rule : PairingRule) :
    String × String :=
  let templates := getTemplatesByRule rule
  let ctx := templateContext fileName rule
  (replaceNewlines (applyTemplate templates.header ctx) eol,
   replaceNewlines (applyTemplate templates.source ctx) eol)

/-- `pat` occurs as a substring of `s`. -/
def containsStr (s pat : String) : Prop :=
  pat.data <:+: s.data

instance (s pat : String) : Decidable (containsStr s pat) :=
  inferInstanceAs (Decidable (pat.data <:+: s.data))

/-- C5: content generation substitutes the three variables (`fileName`, the
upper-cased-`fileName` + `_H_` header guard, and the `#include` line built
from the chosen header extension) into one of five fixed template pairs;
for `fileName = "Foo"` with the class template the header contains
`#ifndef FOO_H_`, `#define FOO_H_` and `class Foo {`, and the source
contains `#include "Foo.h"` and `Foo::Foo()`. -/
theorem generateFileContent_spec :
    (∀ rule : PairingRule, getTemplatesByRule rule ∈
      [cppClassTemplates, cppStructTemplates, cStructTemplates,
       cEmptyTemplates, cppEmptyTemplates]) ∧
    templateContext "Foo" cppClassRule =
      [("fileName", "Foo"), ("headerGuard", "FOO_H_"),
       ("includeLine", "#include \"Foo.h\"")] ∧
    containsStr (generateFileContent "Foo" "\n" cppClassRule).1
      "#ifndef FOO_H_" ∧
    containsStr (generateFileContent "Foo" "\n" cppClassRule).1
      "#define FOO_H_" ∧
    containsStr (generateFileContent "Foo" "\n" cppClassRule).1
      "class Foo \x7b" ∧
    containsStr (generateFileContent "Foo" "\n" cppClassRule).2
      "#include \"Foo.h\"" ∧
    containsStr (generateFileContent "Foo" "\n" cppClassRule).2
      "Foo::Foo()" := by
  refine ⟨?_, by decide, by decide, by decide, by decide, by decide, by decide⟩
  intro rule
  unfold getTemplatesByRule
  repeat' split
  all_goals decide

/-- C8 counterexample: template substitution is not idempotent for an
arbitrary context — a context value may itself contain a placeholder, which
a second application substitutes again. -/
theorem applyTemplate_not_idempotent :
    applyTemplate
        (applyTemplate "\x7b\x7ba\x7d\x7d" [("a", "\x7b\x7ba\x7d\x7d!")])
        [("a", "\x7b\x7ba\x7d\x7d!")] ≠
      applyTemplate "\x7b\x7ba\x7d\x7d" [("a", "\x7b\x7ba\x7d\x7d!")] := by
  decide

/-- C8 (amended): substitution is idempotent on a fixed context whenever a
single application yields output with no two adjacent `{` characters — in
particular for the built-in templates under the generated context of a valid
identifier file name, whose values contain no braces. -/
theorem applyTemplate_idempotent (t : String) (ctx : List (String × String))
    (h : noAdjacentBraces (applyTemplate t ctx).data = true) :
    applyTemplate (applyTemplate t ctx) ctx = applyTemplate t ctx := by
  show String.mk _ = _
  rw [substAux_id _ _ _ h]

/-- Witness for `applyTemplate_idempotent`: the C++ class header template
with the context generated for `Foo`. -/
theorem applyTemplate_idempotent_witness :
    applyTemplate
        (applyTemplate cppClassTemplates.header
          (templateContext "Foo" cppClassRule))
        (templateContext "Foo" cppClassRule) =
      applyTemplate cppClassTemplates.header
        (templateContext "Foo" cppClassRule) :=
  applyTemplate_idempotent cppClassTemplates.header
    (templateContext "Foo" cppClassRule) (by decide)

/-- C9: the `context[key] || match` and `context[key] ?? ''` variants of
`applyTemplate` agree on every template whose placeholders are all bound to
non-empty strings in the context, and disagree in general on an unbound
placeholder (`{{a}}` with an empty context stays `{{a}}` in the first and
becomes empty in the second). -/
theorem applyTemplate_variants :
    (∀ t ctx, (∀ w ∈ templatePlaceholders t, (jsLookup ctx w).getD "" ≠ "") →
      applyTemplate t ctx = applyTemplateNS t ctx) ∧
    applyTemplate "\x7b\x7ba\x7d\x7d" [] ≠
      applyTemplateNS "\x7b\x7ba\x7d\x7d" [] := by
  constructor
  · intro t ctx h
    refine congrArg String.mk (substAux_congr _ _ _ _ (fun w hw => ?_))
    have hv := h w hw
    unfold replOrMatch replOrEmpty
    cases hjl : jsLookup ctx w with
    | none => rw [hjl] at hv; simp at hv
    | some v =>
      rw [hjl] at hv
      simp only [Option.getD_some] at hv
      simp [hjl, hv]
  · decide

/-- Witness for `applyTemplate_variants`: on `{{a}}` with `a` bound to a
non-empty value both variants produce that value. -/
theorem applyTemplate_variants_witness :
    applyTemplate "\x7b\x7ba\x7d\x7d" [("a", "x")] =
      applyTemplateNS "\x7b\x7ba\x7d\x7d" [("a", "x")] :=
  applyTemplate_variants.1 "\x7b\x7ba\x7d\x7d" [("a", "x")] (by decide)

/-! ## The create flow (`PairCreator.create`, first variant, lines 83–117)

The sequential dialog chain is modelled by injecting each dialog's result:
`none` models a dismissed dialog.  The file system is the existence
predicate `fexists`; `writtenPaths` lists the paths the flow writes. -/

/-- The injected environment of one `create` invocation. -/
structure CreateEnv where
  targetDir : Option String
  ruleChoice : Option PairingRule
  fileNameChoice : Option String
  eol : String
  fexists : String → Bool

/-- The observable outcome of one `create` invocation. -/
inductive CreateResult where
  | errorNoTargetDir
  | cancelled
  | errorFileExists (p : String)
  | created (headerPath sourcePath headerContent sourceContent : String)
deriving DecidableEq, Repr

/-- `PairCreator.checkFileExistence` (lines 620–631): stats the header path
then the source path and returns the first that exists. -/
def checkFileExistence (fexists : String → Bool)
    (headerPath sourcePath : String) : Option String :=
  if fexists headerPath then some headerPath
  else if fexists sourcePath then some sourcePath
  else none

/-- `PairCreator.create` (lines 83–117), with the dialog results injected
from `env`.  Writing both files is modelled by the `created` outcome. -/
def create (env : CreateEnv) : CreateResult :=
  match env.targetDir with
  | none => .errorNoTargetDir
  | some dir =>
    match env.ruleChoice with
    | none => .cancelled
    | some rule =>
      match env.fileNameChoice with
      | none => .cancelled
      | some fileName =>
        let headerPath := pjoin dir (fileName ++ rule.headerExt)
        let sourcePath := pjoin dir (fileName ++ rule.sourceExt)
        match checkFileExistence env.fexists headerPath sourcePath with
        | some p => .errorFileExists p
        | none =>
          let contents := generateFileContent fileName env.eol rule
          .created headerPath sourcePath contents.1 contents.2

/-- The paths written by an outcome: only a successful creation writes, and
it writes exactly the two computed target paths. -/
def writtenPaths : CreateResult → List String
  | .created h s _ _ => [h, s]
  | _ => []

/-- C4: if either computed target path already exists, nothing is written
and the error names an existing path; if both are absent the flow creates
exactly the two target paths; a dismissed dialog aborts with nothing
written. -/
theorem create_no_overwrite (env : CreateEnv) :
    (∀ dir rule fileName, env.targetDir = some dir →
      env.ruleChoice = some rule → env.fileNameChoice = some fileName →
      ((env.fexists (pjoin dir (fileName ++ rule.headerExt)) = true ∨
        env.fexists (pjoin dir (fileName ++ rule.sourceExt)) = true) →
        writtenPaths (create env) = [] ∧
        ∃ p, create env = .errorFileExists p ∧ env.fexists p = true) ∧
      (env.fexists (pjoin dir (fileName ++ rule.headerExt)) = false →
       env.fexists (pjoin dir (fileName ++ rule.sourceExt)) = false →
       writtenPaths (create env) =
         [pjoin dir (fileName ++ rule.headerExt),
          pjoin dir (fileName ++ rule.sourceExt)])) ∧
    ((env.ruleChoice = none ∨ env.fileNameChoice = none) →
      writtenPaths (create env) = []) := by
  constructor
  · intro dir rule fileName hd hr hn
    constructor
    · intro hex
      by_cases hH : env.fexists (pjoin dir (fileName ++ rule.headerExt)) = true
      · constructor
        · simp [create, hd, hr, hn, checkFileExistence, hH, writtenPaths]
        · refine ⟨pjoin dir (fileName ++ rule.headerExt), ?_, hH⟩
          simp [create, hd, hr, hn, checkFileExistence, hH]
      · have hS : env.fexists (pjoin dir (fileName ++ rule.sourceExt)) = true := by
          rcases hex with h | h
          · exact absurd h hH
          · exact h
        constructor
        · simp [create, hd, hr, hn, checkFileExistence, hH, hS, writtenPaths]
        · refine ⟨pjoin dir (fileName ++ rule.sourceExt), ?_, hS⟩
          simp [create, hd, hr, hn, checkFileExistence, hH, hS]
    · intro hH hS
      simp [create, hd, hr, hn, checkFileExistence, hH, hS, writtenPaths]
  · intro habort
    match hdir : env.targetDir with
    | none => simp [create, hdir, writtenPaths]
    | some dir =>
      rcases habort with h | h
      · simp [create, hdir, h, writtenPaths]
      · match hrule : env.ruleChoice with
        | none => simp [create, hdir, hrule, writtenPaths]
        | some rule => simp [create, hdir, hrule, h, writtenPaths]

/-- A concrete environment in which the header target already exists. -/
def envHeaderExists : CreateEnv :=
  { targetDir := some "d", ruleChoice := some cppEmptyRule,
    fileNameChoice := some "Foo", eol := "\n",
    fexists := fun s => s == "d/Foo.h" }

/-- Witness for `create_no_overwrite`: with `d/Foo.h` pre-existing, nothing
is written. -/
theorem create_no_overwrite_witness :
    writtenPaths (create envHeaderExists) = [] :=
  (((create_no_overwrite envHeaderExists).1 "d" cppEmptyRule "Foo"
    rfl rfl rfl).1 (Or.inl (by decide))).1

/-! ## Custom-rule offer and built-in template selection
(`checkAndOfferCustomRules` / `promptForPairingRule`)

The dialog results are again injected: `selectResult` is the pick in
`selectFromCustomRules` (`none` = cancelled), `offerResponse` is the answer
to the offer-to-create prompt (`some true` = "Create Custom Rules",
`some false` = "Use Defaults"/"Dismiss", `none` = dialog dismissed), and
`createResult` is the outcome of `createCustomRules`. -/

/-- A pick in the custom-rule quick-pick. -/
inductive CustomSelect where
  | useDefault
  | rule (r : PairingRule)

/-- Configured rules plus the injected dialog results. -/
structure RuleFlowEnv where
  workspaceRules : List PairingRule
  userRules : List PairingRule
  selectResult : Option CustomSelect
  offerResponse : Option Bool
  createResult : Option PairingRule

/-- The value `checkAndOfferCustomRules` hands back to
`promptForPairingRule`: `null` (cancelled), `'use_default'`, a rule, or
`undefined` (fall through to the built-in templates). -/
inductive CustomRulesOutcome where
  | cancelled
  | useDefault
  | selected (r : PairingRule)
  | fallthrough
deriving DecidableEq, Repr

/-- `PairCreator.checkAndOfferCustomRules` (first variant, lines 195–231).
The second component records whether the offer-to-create prompt was
shown. -/
def checkAndOfferCustomRules (env : RuleFlowEnv) (language : Language)
    (uncertain : Bool) : CustomRulesOutcome × Bool :=
  let availableRules := env.workspaceRules ++ env.userRules
  let languageRules := availableRules.filter
    (fun rule => decide (rule.language = language))
  if languageRules.length > 0 then
    match env.selectResult with
    | none => (.cancelled, false)
    | some .useDefault => (.useDefault, false)
    | some (.rule r) => (.selected r, false)
  else if uncertain = false then
    match env.offerResponse with
    | none => (.cancelled, true)
    | some true =>
      (match env.createResult with
       | none => .cancelled
       | some r => .selected r, true)
    | some false => (.fallthrough, true)
  else (.fallthrough, false)

/-- The namespaced variant (second variant, lines 922–943): identical
except that for language C it immediately falls through to the default C
templates, never showing the offer. -/
def checkAndOfferCustomRulesNS (env : RuleFlowEnv) (language : Language)
    (uncertain : Bool) : CustomRulesOutcome × Bool :=
  if language = .c then (.fallthrough, false)
  else checkAndOfferCustomRules env language uncertain

/-- The `desiredOrder` key lists of `promptForPairingRule`
(lines 465–473). -/
def desiredOrder (language : Language) (uncertain : Bool) : List String :=
  if uncertain = true then
    ["cpp_empty", "c_empty", "cpp_class", "cpp_struct", "c_struct"]
  else if language = .c then
    ["c_empty", "c_struct", "cpp_empty", "cpp_class", "cpp_struct"]
  else ["cpp_empty", "cpp_class", "cpp_struct", "c_empty", "c_struct"]

/-- Stable insertion of an element into a sorted list. -/
def insertSorted (le : PairingRule → PairingRule → Bool) (a : PairingRule) :
    List PairingRule → List PairingRule
  | [] => [a]
  | b :: l => if le a b then a :: b :: l else b :: insertSorted le a l

/-- Stable sort by a boolean comparison (JavaScript `Array.prototype.sort`
with the comparator `desiredOrder.indexOf(a.key) - desiredOrder.indexOf(b.key)`
is a stable sort by index; all five keys occur in every order list, and the
keys are distinct, so the result is the unique ascending order). -/
def sortBy (le : PairingRule → PairingRule → Bool) :
    List PairingRule → List PairingRule
  | [] => []
  | a :: l => insertSorted le a (sortBy le l)

/-- The sorted built-in template choices of `promptForPairingRule`
(lines 475–476). -/
def defaultTemplateChoices (language : Language) (uncertain : Bool) :
    List PairingRule :=
  sortBy (fun a b =>
    Nat.ble ((desiredOrder language uncertain).indexOf a.key)
      ((desiredOrder language uncertain).indexOf b.key)) TEMPLATE_RULES

/-- C6 counterexample: dismissing the offer-to-create prompt does not fall
through to the built-in templates — it aborts the flow
(`checkAndOfferCustomRules` returns `null`, and `promptForPairingRule`
then returns `undefined`). -/
theorem offer_cancel_aborts :
    checkAndOfferCustomRules
      { workspaceRules := [], userRules := [], selectResult := none,
        offerResponse := none, createResult := none } .cpp false =
      (.cancelled, true) ∧
    CustomRulesOutcome.cancelled ≠ CustomRulesOutcome.fallthrough := by
  constructor
  · rfl
  · intro h; cases h

/-- C6 (amended): with no custom rules for the detected language, the first
variant shows the offer prompt iff detection was certain; declining falls
through to the built-ins while dismissing aborts; when uncertain the flow
goes straight to the built-ins without the offer.  The namespaced variant
additionally skips the offer for language C.  The built-in choices under
uncertain detection are ordered with `cpp_empty` first. -/
theorem checkAndOffer_no_rules (env : RuleFlowEnv) (language : Language)
    (uncertain : Bool)
    (hfilter : (env.workspaceRules ++ env.userRules).filter
      (fun rule => decide (rule.language = language)) = []) :
    (checkAndOfferCustomRules env language uncertain).2 = !uncertain ∧
    (uncertain = true → checkAndOfferCustomRules env language uncertain =
      (.fallthrough, false)) ∧
    (uncertain = false → env.offerResponse = some false →
      (checkAndOfferCustomRules env language uncertain).1 = .fallthrough) ∧
    (uncertain = false → env.offerResponse = none →
      (checkAndOfferCustomRules env language uncertain).1 = .cancelled) := by
  have hunf : checkAndOfferCustomRules env language uncertain =
      if uncertain = false then
        match env.offerResponse with
        | none => (.cancelled, true)
        | some true =>
          (match env.createResult with
           | none => CustomRulesOutcome.cancelled
           | some r => CustomRulesOutcome.selected r, true)
        | some false => (.fallthrough, true)
      else (.fallthrough, false) := by
    simp only [checkAndOfferCustomRules, hfilter]
    rfl
  rw [hunf]
  cases uncertain with
  | true =>
    exact ⟨rfl, fun _ => rfl, fun h => by simp at h, fun h => by simp at h⟩
  | false =>
    cases hoff : env.offerResponse with
    | none =>
      exact ⟨rfl, fun h => by simp at h, fun _ h => by simp at h,
        fun _ _ => rfl⟩
    | some b =>
      cases b with
      | false =>
        exact ⟨rfl, fun h => by simp at h, fun _ _ => rfl,
          fun _ h => by simp at h⟩
      | true =>
        exact ⟨rfl, fun h => by simp at h, fun _ h => by simp at h,
          fun _ h => by simp at h⟩

/-- C6 (amended): with no custom rules for the detected language, the first
variant shows the offer prompt iff detection was certain; declining falls
through to the built-ins while dismissing aborts; when uncertain the flow
goes straight to the built-ins without the offer.  The namespaced variant
additionally skips the offer for language C.  The built-in choices under
uncertain detection are ordered with `cpp_empty` first. -/
theorem offer_prompt_policy :
    (∀ (env : RuleFlowEnv) (language : Language) (uncertain : Bool),
      (env.workspaceRules ++ env.userRules).filter
        (fun rule => decide (rule.language = language)) = [] →
      ((checkAndOfferCustomRules env language uncertain).2 = !uncertain ∧
       (uncertain = true →
         checkAndOfferCustomRules env language uncertain =
           (.fallthrough, false)) ∧
       (uncertain = false → env.offerResponse = some false →
         (checkAndOfferCustomRules env language uncertain).1 =
           .fallthrough) ∧
       (uncertain = false → env.offerResponse = none →
         (checkAndOfferCustomRules env language uncertain).1 =
           .cancelled))) ∧
    (∀ (env : RuleFlowEnv) (uncertain : Bool),
      checkAndOfferCustomRulesNS env .c uncertain = (.fallthrough, false)) ∧
    (∀ (env : RuleFlowEnv) (uncertain : Bool),
      (env.workspaceRules ++ env.userRules).filter
        (fun rule => decide (rule.language = Language.cpp)) = [] →
      (checkAndOfferCustomRulesNS env .cpp uncertain).2 = !uncertain) ∧
    (∀ language, (defaultTemplateChoices language true).map
        (fun rule => rule.key) =
      ["cpp_empty", "c_empty", "cpp_class", "cpp_struct", "c_struct"]) := by
  refine ⟨checkAndOffer_no_rules, ?_, ?_, ?_⟩
  · intro env uncertain
    rfl
  · intro env uncertain hfilter
    exact (checkAndOffer_no_rules env .cpp uncertain hfilter).1
  · intro language
    cases language <;> rfl

/-- Witness for `offer_prompt_policy`: no rules configured, certain C++
detection, user declines the offer: the prompt was shown and the flow falls
through to the built-ins. -/
theorem offer_prompt_policy_witness :
    (checkAndOfferCustomRules
      { workspaceRules := [], userRules := [], selectResult := none,
        offerResponse := some false, createResult := none } .cpp false).1 =
      CustomRulesOutcome.fallthrough :=
  ((offer_prompt_policy.1
    { workspaceRules := [], userRules := [], selectResult := none,
      offerResponse := some false, createResult := none } .cpp false
    rfl).2.2.1) rfl rfl

/-! ## Built-in template selection and the cross-language guard
(`promptForPairingRule`, tails after the custom-rule step)

`pick` is the user's choice from the shown quick-pick (`none` = dismissed);
`continueAnyway` is `true` iff the user answers the warning with
"Continue Anyway".  The returned triple is (shown choices, final result,
whether the mismatch warning was shown).  The second variant's
`adaptRuleForCurrentExtensions` is the identity when no custom C++ rules
are configured, the configuration these models cover. -/

/-- Tail of the first variant's `promptForPairingRule` (lines 465–483): the
sorted built-in templates are shown and the pick is returned unchanged —
this variant has no cross-language confirmation step. -/
def promptDefaultSelection (language : Language) (uncertain : Bool)
    (pick : Option PairingRule) :
    List PairingRule × Option PairingRule × Bool :=
  (defaultTemplateChoices language uncertain, pick, false)

/-- Tail of the second variant's `promptForPairingRule` (lines 1103–1128):
after the pick, a certain detection disagreeing with the picked template's
language shows the warning, and the pick is kept only on
"Continue Anyway". -/
def promptDefaultSelectionNS (language : Language) (uncertain : Bool)
    (pick : Option PairingRule) (continueAnyway : Bool) :
    List PairingRule × Option PairingRule × Bool :=
  let choices := defaultTemplateChoices language uncertain
  match pick with
  | none => (choices, none, false)
  | some r =>
    if uncertain = false ∧ ¬language = r.language then
      if continueAnyway then (choices, some r, true) else (choices, none, true)
    else (choices, some r, false)

/-- C7 counterexample: in the first variant, with certain C detection and a
C++ template selected, the flow proceeds with the mismatched rule and no
confirmation step is shown. -/
theorem mismatch_unguarded_first_variant :
    (promptDefaultSelection .c false (some cppEmptyRule)).2 =
      (some cppEmptyRule, false) ∧
    ¬cppEmptyRule.language = Language.c := by
  exact ⟨rfl, by decide⟩

/-- C7 (amended): in the second variant, a certain detection together with a
pick of the other language shows the confirmation warning, and the flow
continues with the picked rule iff the user answers "Continue Anyway"; the
first variant has no such guard. -/
theorem mismatch_confirmation (language : Language) (uncertain : Bool)
    (pick : Option PairingRule) (r : PairingRule) (continueAnyway : Bool)
    (hu : uncertain = false) (hp : pick = some r)
    (hl : ¬language = r.language) :
    (promptDefaultSelectionNS language uncertain pick continueAnyway).2.2 =
      true ∧
    ((promptDefaultSelectionNS language uncertain pick
        continueAnyway).2.1 = some r ↔ continueAnyway = true) := by
  subst hu hp
  simp only [promptDefaultSelectionNS, if_pos (And.intro rfl hl)]
  cases continueAnyway <;> simp [hl]

/-- Witness for `mismatch_confirmation`: certain C detection, C++ empty
template picked, user confirms. -/
theorem mismatch_confirmation_witness :
    (promptDefaultSelectionNS .c false (some cppEmptyRule) true).2.2 =
      true ∧
    ((promptDefaultSelectionNS .c false (some cppEmptyRule) true).2.1 =
        some cppEmptyRule ↔ true = true) :=
  mismatch_confirmation .c false (some cppEmptyRule) cppEmptyRule true
    rfl rfl (by decide)

/-! ## Rule persistence with validation
(namespaced `PairingRuleService`, part_001, lines 20–62)

The rules arrive from the settings JSON, so the fields are raw strings and
a missing or empty field is falsy.  The persisted configuration of the
target scope is threaded explicitly; `writeRules` returns the operation's
outcome together with the configuration after the call. -/

/-- The runtime shape of a configured rule (optional display fields
omitted; they are not validated). -/
structure RuleRecord where
  key : String
  label : String
  description : String
  language : String
  headerExt : String
  sourceExt : String
deriving DecidableEq, Repr

/-- `PairingRuleService.validateRule` (part_001, lines 24–28): throws when
`key`, `language`, `headerExt` or `sourceExt` is falsy. -/
def validateRule (r : RuleRecord) : Except String Unit :=
  if r.key = "" ∨ r.language = "" ∨ r.headerExt = "" ∨ r.sourceExt = "" then
    Except.error ("Invalid rule: " ++ r.key)
  else Except.ok ()

/-- `rules.forEach(validateRule)`: validates in order and stops at the
first failing rule. -/
def validateRules : List RuleRecord → Except String Unit
  | [] => Except.ok ()
  | r :: rs =>
    match validateRule r with
    | Except.error e => Except.error e
    | Except.ok _ => validateRules rs

/-- `PairingRuleService.writeRules` (part_001, lines 52–62): validates every
rule before touching the configuration; only when all pass is the
configuration updated to the new array.  (The `Array.isArray` guard always
holds for a `List` input.) -/
def writeRules (rules : List RuleRecord) (cfg : Option (List RuleRecord)) :
    Except String Unit × Option (List RuleRecord) :=
  match validateRules rules with
  | Except.error e => (Except.error e, cfg)
  | Except.ok _ => (Except.ok (), some rules)

theorem validateRules_error :
    ∀ rules : List RuleRecord,
      (∃ r ∈ rules, ∃ e, validateRule r = Except.error e) →
      ∃ e, validateRules rules = Except.error e := by
  intro rules h
  induction rules with
  | nil => obtain ⟨r, hr, _⟩ := h; exact absurd hr (List.not_mem_nil r)
  | cons r0 rs ih =>
    cases hv : validateRule r0 with
    | error e => exact ⟨e, by simp [validateRules, hv]⟩
    | ok u =>
      obtain ⟨r, hr, e, he⟩ := h
      rcases List.mem_cons.mp hr with rfl | hmem
      · rw [hv] at he; cases he
      · obtain ⟨e2, he2⟩ := ih ⟨r, hmem, e, he⟩
        exact ⟨e2, by cases u; simpa [validateRules, hv] using he2⟩

theorem validateRules_ok :
    ∀ rules : List RuleRecord,
      (∀ r ∈ rules, validateRule r = Except.ok ()) →
      validateRules rules = Except.ok () := by
  intro rules h
  induction rules with
  | nil => rfl
  | cons r0 rs ih =>
    have h0 := h r0 (List.mem_cons_self r0 rs)
    simp only [validateRules, h0]
    exact ih (fun r hr => h r (List.mem_cons_of_mem r0 hr))

/-- C10: the namespaced `writeRules` validates every rule before touching
settings: if any rule lacks a `key`, `language`, `headerExt` or
`sourceExt`, it throws and the persisted configuration is unchanged; the
update happens exactly when all rules pass validation, and then installs
the given array. -/
theorem writeRules_validates_first (rules : List RuleRecord)
    (cfg : Option (List RuleRecord)) :
    ((∃ r ∈ rules, ∃ e, validateRule r = Except.error e) →
      ∃ e, writeRules rules cfg = (Except.error e, cfg)) ∧
    ((∀ r ∈ rules, validateRule r = Except.ok ()) →
      writeRules rules cfg = (Except.ok (), some rules)) := by
  constructor
  · intro h
    obtain ⟨e, he⟩ := validateRules_error rules h
    exact ⟨e, by simp [writeRules, he]⟩
  · intro h
    simp [writeRules, validateRules_ok rules h]

/-- Witness for `writeRules_validates_first`: a rule with an empty `key`
leaves a pre-existing configuration untouched. -/
theorem writeRules_validates_first_witness :
    ∃ e, writeRules
        [{ key := "", label := "L", description := "D", language := "cpp",
           headerExt := ".h", sourceExt := ".cpp" }]
        (some []) = (Except.error e, some []) :=
  (writeRules_validates_first _ (some [])).1
    ⟨{ key := "", label := "L", description := "D", language := "cpp",
       headerExt := ".h", sourceExt := ".cpp" },
     List.mem_cons_self _ _, "Invalid rule: ", rfl⟩

end VCPair
